import Mathlib

/-!
Formal model of the DeepFry Studio image pipeline and render scheduler.

The source is a small TypeScript/React application in three variants:
the main variant (the file called part_000 here, with the RAF scheduler,
burn pass and bloom), the App.tsx variant (no burn, no scheduler) and the
free-build variant (part_001, no pixel gain pass, posterize and noise
applied directly on the visible canvas).

Numbers are modelled in exact rational arithmetic; the JavaScript
coercions that matter (truncation via the bitwise or with zero, and
Math.round's half-up rounding) are modelled explicitly on rationals.
The transcendental exposure gain 2^exposureEV is kept as an explicit
rational argument named eg wherever the pixel pass needs it, since only
its value enters the arithmetic.
-/

namespace DeepFry

/-- Truncation toward zero on rationals: the effect of the bitwise
coercion with zero in the source (the expression v | 0) for values of
magnitude below 2^31; all values the pixel pass produces stay far below
that bound for in-range parameters. -/
def jsTrunc (q : ℚ) : ℤ := if 0 ≤ q then ⌊q⌋ else ⌈q⌉

/-- The helper clamp of part_000 line 210 and App.tsx line 130:
Math.max(0, Math.min(255, v | 0)). -/
def clamp (q : ℚ) : ℤ := max 0 (min 255 (jsTrunc q))

/-- JavaScript Math.round: round half toward positive infinity. -/
def jsRound (q : ℚ) : ℤ := ⌊q + 1/2⌋

/-- The preset selector of all variants. -/
inductive Preset
  | pnone | film | lofi | vhs | ultra
deriving DecidableEq

/-- The ParameterSet: the adjustable state of the main variant
(part_000 lines 20 to 28). -/
structure Params where
  brightness : ℚ
  contrast : ℚ
  saturation : ℚ
  hue : ℚ
  exposureEV : ℚ
  burn : ℚ
  noise : ℚ
  posterize : ℕ
  preset : Preset
deriving DecidableEq

/-- The documented parameter ranges of the spec's interface table. -/
def inRange (p : Params) : Prop :=
  50 ≤ p.brightness ∧ p.brightness ≤ 400 ∧
  50 ≤ p.contrast ∧ p.contrast ≤ 250 ∧
  0 ≤ p.saturation ∧ p.saturation ≤ 300 ∧
  -180 ≤ p.hue ∧ p.hue ≤ 180 ∧
  -2 ≤ p.exposureEV ∧ p.exposureEV ≤ 2 ∧
  0 ≤ p.burn ∧ p.burn ≤ 100 ∧
  0 ≤ p.noise ∧ p.noise ≤ 1 ∧
  p.posterize ≤ 8

instance (p : Params) : Decidable (inRange p) := by
  unfold inRange; infer_instance

/-- The default parameter values of part_000. -/
def defaultParams : Params :=
  { brightness := 120, contrast := 120, saturation := 140, hue := 0,
    exposureEV := 0, burn := 35, noise := 0.08, posterize := 0,
    preset := .pnone }

/-- Extra linear gain beyond the 200 percent grade ceiling:
Math.max(1, brightness / 200) (part_000 line 112, App.tsx line 78). -/
def extraGain (brightness : ℚ) : ℚ := max 1 (brightness / 200)

/-- Burn amount: Math.max(0, Math.min(1, burn / 100)) (part_000 line 121). -/
def burnAmt (burn : ℚ) : ℚ := max 0 (min 1 (burn / 100))

/-- Rec. 709 luminance of the post-gain channels (part_000 line 132). -/
def lum (r g b : ℚ) : ℚ := 0.2126 * r + 0.7152 * g + 0.0722 * b

/-- Highlight mask Math.min(1, Math.max(0, (L - 110) / 145))
(part_000 line 133). -/
def tMask (l : ℚ) : ℚ := min 1 (max 0 ((l - 110) / 145))

/-- The burn branch of the pixel loop (part_000 lines 131 to 138),
with warmBoost = 0.45 * burnAmt, hlPush = 1.15 * burnAmt and
blueCut = 0.28 * burnAmt from lines 122 to 124. -/
def burnStep (bA r g b : ℚ) : ℚ × ℚ × ℚ :=
  if 0 < bA then
    let t := tMask (lum r g b)
    let warmBoost := 0.45 * bA
    let hlPush := 1.15 * bA
    let blueCut := 0.28 * bA
    let push := 1 + hlPush * t
    (r * push + 255 * warmBoost * t * 0.6,
     g * (1 + hlPush * 0.65 * t) + 255 * warmBoost * t * 0.3,
     b * (1 + hlPush * 0.35 * t) - 255 * blueCut * t * 0.2)
  else (r, g, b)

/-- One iteration of the pixel loop of part_000 lines 126 to 151 up to
but excluding the final clamp: exposure and extra gain, burn, posterize,
noise. The argument eg stands for the exposure gain 2 ^ exposureEV of
line 111; the argument rand stands for the Math.random() sample drawn
for this pixel on line 147. -/
def preClamp (p : Params) (eg : ℚ) (allowHeavy : Bool) (rand r g b : ℚ) :
    ℚ × ℚ × ℚ :=
  let gain := eg * extraGain p.brightness
  let bA := burnAmt p.burn
  let v := burnStep bA (r * gain) (g * gain) (b * gain)
  let doP := 1 < p.posterize ∧ allowHeavy = true
  let step : ℚ := if doP then 255 / ((p.posterize : ℚ) - 1) else 0
  let r3 := if doP then (jsRound (v.1 / step) : ℚ) * step else v.1
  let g3 := if doP then (jsRound (v.2.1 / step) : ℚ) * step else v.2.1
  let b3 := if doP then (jsRound (v.2.2 / step) : ℚ) * step else v.2.2
  let doN := 0 < p.noise ∧ allowHeavy = true
  let noiseAmp : ℚ := if doN then p.noise * 255 else 0
  let n := (rand - 0.5) * 2 * noiseAmp
  (if doN then r3 + n else r3,
   if doN then g3 + n else g3,
   if doN then b3 + n else b3)

/-- One full iteration of the pixel loop of part_000 lines 126 to 156:
the pre-clamp arithmetic followed by the write-back clamp on each of the
three color channels (lines 153 to 155). -/
def processPixel (p : Params) (eg : ℚ) (allowHeavy : Bool)
    (rand r g b : ℚ) : ℤ × ℤ × ℤ :=
  let v := preClamp p eg allowHeavy rand r g b
  (clamp v.1, clamp v.2.1, clamp v.2.2)

/-- The pixel loop of part_000 lines 126 to 156 over the flat RGBA data
array: four bytes per pixel, the fourth (alpha) byte never assigned.
The index k numbers pixels so that each draws its own random sample.
An ImageData array always has length divisible by four, so the
shorter-tail fallback cases never arise on real buffers. -/
def pixelLoop (p : Params) (eg : ℚ) (allowHeavy : Bool)
    (rand : ℕ → ℚ) : ℕ → List ℚ → List ℚ
  | k, r :: g :: b :: a :: rest =>
    let v := processPixel p eg allowHeavy (rand k) r g b
    (v.1 : ℚ) :: (v.2.1 : ℚ) :: (v.2.2 : ℚ) :: a ::
      pixelLoop p eg allowHeavy rand (k + 1) rest
  | _, [] => []
  | _, [x] => [x]
  | _, [x, y] => [x, y]
  | _, [x, y, z] => [x, y, z]

/-- The pixel pass of part_000 lines 106 to 156: allowHeavy is
runHeavyPasses or not scrubbing (line 106), and the whole pass is
skipped unless it is allowed or one of exposure, excess brightness or
burn forces it (line 107). -/
def renderPixels (p : Params) (eg : ℚ) (scrubbing runHeavyPasses : Bool)
    (rand : ℕ → ℚ) (d : List ℚ) : List ℚ :=
  let allowHeavy := runHeavyPasses || !scrubbing
  if allowHeavy = true ∨ p.exposureEV ≠ 0 ∨ 200 < p.brightness ∨ 0 < p.burn
  then pixelLoop p eg allowHeavy rand 0 d
  else d

theorem clamp_nonneg (q : ℚ) : 0 ≤ clamp q := le_max_left 0 _

theorem clamp_le_255 (q : ℚ) : clamp q ≤ 255 :=
  max_le (by norm_num) (min_le_left _ _)

/-- C3: for parameters within their documented ranges, each output
channel of one pixel-loop iteration is an integer in the byte range,
and it is produced as the clamp of the truncated pre-clamp value. -/
theorem processPixel_output_in_byte_range (p : Params) (eg rand r g b : ℚ)
    (ah : Bool) (hp : inRange p) :
    (0 ≤ (processPixel p eg ah rand r g b).1 ∧
      (processPixel p eg ah rand r g b).1 ≤ 255) ∧
    (0 ≤ (processPixel p eg ah rand r g b).2.1 ∧
      (processPixel p eg ah rand r g b).2.1 ≤ 255) ∧
    (0 ≤ (processPixel p eg ah rand r g b).2.2 ∧
      (processPixel p eg ah rand r g b).2.2 ≤ 255) ∧
    processPixel p eg ah rand r g b =
      (clamp (preClamp p eg ah rand r g b).1,
       clamp (preClamp p eg ah rand r g b).2.1,
       clamp (preClamp p eg ah rand r g b).2.2) :=
  ⟨⟨clamp_nonneg _, clamp_le_255 _⟩, ⟨clamp_nonneg _, clamp_le_255 _⟩,
   ⟨clamp_nonneg _, clamp_le_255 _⟩, rfl⟩

/-- C3 witness: the byte-range bound evaluated at the default parameters
on a concrete pixel. -/
theorem processPixel_output_in_byte_range_witness :
    inRange defaultParams ∧
    ((0 ≤ (processPixel defaultParams 1 true (1/2) 10 20 30).1 ∧
      (processPixel defaultParams 1 true (1/2) 10 20 30).1 ≤ 255) ∧
    (0 ≤ (processPixel defaultParams 1 true (1/2) 10 20 30).2.1 ∧
      (processPixel defaultParams 1 true (1/2) 10 20 30).2.1 ≤ 255) ∧
    (0 ≤ (processPixel defaultParams 1 true (1/2) 10 20 30).2.2 ∧
      (processPixel defaultParams 1 true (1/2) 10 20 30).2.2 ≤ 255) ∧
    processPixel defaultParams 1 true (1/2) 10 20 30 =
      (clamp (preClamp defaultParams 1 true (1/2) 10 20 30).1,
       clamp (preClamp defaultParams 1 true (1/2) 10 20 30).2.1,
       clamp (preClamp defaultParams 1 true (1/2) 10 20 30).2.2)) :=
  ⟨by norm_num [inRange, defaultParams],
   processPixel_output_in_byte_range defaultParams 1 (1/2) 10 20 30 true
     (by norm_num [inRange, defaultParams])⟩

/-- Scheduler state of the main variant: the requestAnimationFrame
handle (modelled as the flag that a callback is armed, part_000 line 36),
the pending-full flag wantFullRef (line 37) and the scrubbing flag
isScrubbingRef (line 35). -/
structure Sched where
  rafScheduled : Bool
  wantFull : Bool
  scrubbing : Bool
deriving DecidableEq

/-- Events the scheduler reacts to: a queueRender call with its
requestFull argument, the armed animation-frame callback firing, and a
pointer edge setting the scrubbing flag (startScrub and endScrub,
part_000 lines 380 to 387). -/
inductive Ev
  | request (forceFull : Bool)
  | fire
  | pointer (scrub : Bool)
deriving DecidableEq

/-- One scheduler transition, returning the new state and the runFull
argument of the renderFrame invocation if one happens. queueRender
(part_000 lines 50 to 59): the forceFull argument is ORed into the
pending flag, and a callback is armed unless one already is. The
callback: clear the handle, compute runFull as wantFull and not
scrubbing, clear wantFull, render. -/
def step (s : Sched) : Ev → Sched × Option Bool
  | .request f =>
    ({ s with wantFull := s.wantFull || f, rafScheduled := true }, none)
  | .fire =>
    if s.rafScheduled then
      ({ rafScheduled := false, wantFull := false, scrubbing := s.scrubbing },
        some (s.wantFull && !s.scrubbing))
    else (s, none)
  | .pointer b => ({ s with scrubbing := b }, none)

/-- Run the scheduler over an event list, collecting the renderFrame
invocations in order. -/
def run (s : Sched) : List Ev → Sched × List Bool
  | [] => (s, [])
  | e :: es =>
    let t := step s e
    let u := run t.1 es
    (u.1, t.2.toList ++ u.2)

theorem run_append (s : Sched) (l1 l2 : List Ev) :
    run s (l1 ++ l2) =
      ((run (run s l1).1 l2).1, (run s l1).2 ++ (run (run s l1).1 l2).2) := by
  induction l1 generalizing s with
  | nil => simp [run]
  | cons e es ih => simp [run, ih, List.append_assoc]

theorem run_requests (bs : List Bool) (s : Sched) :
    run s (bs.map Ev.request) =
      ({ rafScheduled := s.rafScheduled || !bs.isEmpty,
         wantFull := s.wantFull || bs.any id,
         scrubbing := s.scrubbing }, []) := by
  induction bs generalizing s with
  | nil => simp [run]
  | cons b rest ih =>
    simp only [List.map_cons, run, step, ih, Option.toList_none,
      List.nil_append, List.isEmpty_cons, List.any_cons, Bool.not_false,
      Bool.or_true, Bool.true_or, id]
    rw [Bool.or_assoc]

/-- C2: a burst of one or more queueRender calls between two callback
firings yields exactly one renderFrame invocation, whose runFull
argument is the OR of the burst's forceFull flags masked by the
scrubbing flag at fire time; afterwards the handle and the pending flag
are clear again. -/
theorem requests_coalesce_to_one_render (s : Sched) (bs : List Bool)
    (h0 : s.rafScheduled = false) (h1 : s.wantFull = false)
    (hne : bs ≠ []) :
    (run s (bs.map Ev.request ++ [Ev.fire])).2 =
      [bs.any id && !s.scrubbing] ∧
    (run s (bs.map Ev.request ++ [Ev.fire])).1.rafScheduled = false ∧
    (run s (bs.map Ev.request ++ [Ev.fire])).1.wantFull = false := by
  have hem : bs.isEmpty = false := by
    cases bs with
    | nil => exact absurd rfl hne
    | cons b t => rfl
  rw [run_append, run_requests]
  simp [run, step, h0, h1, hem]

/-- C2 witness: a concrete burst of three calls, flags false, true,
false, coalesces to a single full-resolution render. -/
theorem requests_coalesce_to_one_render_witness :
    (run ⟨false, false, false⟩
        ([false, true, false].map Ev.request ++ [Ev.fire])).2 =
      [[false, true, false].any id && !(false : Bool)] ∧
    (run ⟨false, false, false⟩
        ([false, true, false].map Ev.request ++ [Ev.fire])).1.rafScheduled
      = false ∧
    (run ⟨false, false, false⟩
        ([false, true, false].map Ev.request ++ [Ev.fire])).1.wantFull
      = false :=
  requests_coalesce_to_one_render ⟨false, false, false⟩ [false, true, false]
    rfl rfl (by simp)

/-- C1 counterexample: a queueRender call with forceFull true arrives
while scrubbing; when the armed callback fires, still scrubbing, the one
executed render runs with runFull false and the pending-full flag is
cleared — the forced-full request is dropped, contradicting the claim
that the next executed render runs at full resolution regardless of the
scrubbing flag at fire time. -/
theorem forceFull_dropped_while_scrubbing_cex :
    (run ⟨false, false, true⟩ [Ev.request true, Ev.fire]).2 = [false] ∧
    (run ⟨false, false, true⟩ [Ev.request true, Ev.fire]).1.wantFull
      = false := by
  decide

/-- C1 amended: a burst containing a forceFull request yields exactly
one render, which runs at full resolution exactly when scrubbing is
false at the moment the callback fires; the pending flag is cleared
either way, so a force request that fires during scrubbing is dropped
rather than deferred. -/
theorem forceFull_honored_iff_not_scrubbing_at_fire (s : Sched)
    (bs : List Bool) (h0 : s.rafScheduled = false)
    (h1 : s.wantFull = false) (hf : true ∈ bs) :
    (run s (bs.map Ev.request ++ [Ev.fire])).2 = [!s.scrubbing] ∧
    (run s (bs.map Ev.request ++ [Ev.fire])).1.wantFull = false := by
  have hem : bs.isEmpty = false := by
    cases bs with
    | nil => simp at hf
    | cons b t => rfl
  have hany : bs.any id = true := List.any_eq_true.mpr ⟨true, hf, rfl⟩
  rw [run_append, run_requests]
  simp [run, step, h0, h1, hem, hany]

/-- C1 amended witness: one forceFull call while not scrubbing produces
one full-resolution render. -/
theorem forceFull_honored_iff_not_scrubbing_at_fire_witness :
    (run ⟨false, false, false⟩
        ([true].map Ev.request ++ [Ev.fire])).2 = [!(false : Bool)] ∧
    (run ⟨false, false, false⟩
        ([true].map Ev.request ++ [Ev.fire])).1.wantFull = false :=
  forceFull_honored_iff_not_scrubbing_at_fire ⟨false, false, false⟩ [true]
    rfl rfl (by simp)

/-- The brightness percentage the main variant interpolates into the
canvas filter string: Math.min(brightness, 200) (part_000 line 99). -/
def cssB_main (brightness : ℚ) : ℚ := min brightness 200

/-- The brightness percentage App.tsx interpolates into the canvas
filter string: Math.min(brightness, 200) (App.tsx line 58). -/
def cssB_app (brightness : ℚ) : ℚ := min brightness 200

/-- The brightness percentage the free-build variant interpolates into
its filter string (part_001 line 49): the raw brightness value, with no
cap and no downstream extra gain. -/
def cssB_free (brightness : ℚ) : ℚ := brightness

/-- Every brightness value the free-build variant can hold: the initial
value 120 (part_001 line 11), the reset value 120 (line 135) and the
preset values 115, 110, 115, 160 (lines 144 to 147); no slider feeds
setBrightness in that variant. -/
def freeBrightnessValues : List ℚ := [120, 115, 110, 160]

/-- C4 counterexample: at brightness 300 (inside the documented 50 to
400 range) the free-build variant passes 300 to the filter while the
claimed cap demands min(300, 200) = 200 — the cap does not hold in
every implementation variant. -/
theorem cssB_free_uncapped_cex :
    cssB_free 300 = 300 ∧ min (300 : ℚ) 200 = 200 ∧
    cssB_free 300 ≠ min (300 : ℚ) 200 := by
  refine ⟨rfl, by norm_num [min_def], by norm_num [cssB_free, min_def]⟩

/-- C4 amended: the grade-pass brightness cap effectiveBrightness =
min(brightness, 200) holds in the main variant and in the App.tsx
variant, with the remainder handled as linear gain max(1, brightness /
200); the free-build variant applies brightness uncapped, but every
brightness value that variant can reach stays below 200, where the
uncapped value coincides with the capped one. -/
theorem cssB_cap_per_variant :
    (∀ b : ℚ, cssB_main b = min b 200) ∧
    (∀ b : ℚ, cssB_app b = min b 200) ∧
    (∀ b : ℚ, 200 < b → cssB_main b = 200) ∧
    (∀ b : ℚ, extraGain b = max 1 (b / 200)) ∧
    (∀ b ∈ freeBrightnessValues, cssB_free b = min b 200) := by
  refine ⟨fun b => rfl, fun b => rfl, fun b hb => ?_, fun b => rfl,
    fun b hb => ?_⟩
  · exact min_eq_right hb.le
  · fin_cases hb <;> norm_num [cssB_free, min_def]

/-- C4 witness: the cap evaluated above the ceiling and a reachable
free-build value evaluated below it. -/
theorem cssB_cap_per_variant_witness :
    cssB_main 300 = 200 ∧ cssB_free 160 = min (160 : ℚ) 200 :=
  ⟨cssB_cap_per_variant.2.2.1 300 (by norm_num),
   cssB_cap_per_variant.2.2.2.2 160 (by simp [freeBrightnessValues])⟩

/-- The observable outcome of one handleDownload call. -/
inductive ExportOutcome
  | noCanvas
  | notice
  | download
deriving DecidableEq

/-- handleDownload of the main variant (part_000 lines 303 to 316):
missing canvas is a silent no-op; a canvas with zero width or height
raises the user-visible alert and produces no file; otherwise the
encoded file is offered for download. -/
def handleDownload_main (hasCanvas : Bool) (w h : ℕ) : ExportOutcome :=
  if !hasCanvas then .noCanvas
  else if w = 0 ∨ h = 0 then .notice
  else .download

/-- handleDownload of App.tsx (lines 167 to 174): identical guard
structure to the main variant. -/
def handleDownload_app (hasCanvas : Bool) (w h : ℕ) : ExportOutcome :=
  if !hasCanvas then .noCanvas
  else if w = 0 ∨ h = 0 then .notice
  else .download

/-- handleDownload of the free-build variant (part_001 lines 126 to
132): no zero-area guard at all; the anchor element is created,
assigned the encoded data and clicked unconditionally. -/
def handleDownload_free (hasCanvas : Bool) (w h : ℕ) : ExportOutcome :=
  if !hasCanvas then .noCanvas
  else .download

/-- C9 counterexample: exporting a zero-by-zero surface in the
free-build variant triggers the download path and surfaces no notice,
contradicting the claim that the no-op-with-notice behavior holds in
every implementation variant. -/
theorem download_zero_area_free_variant_cex :
    handleDownload_free true 0 0 = ExportOutcome.download ∧
    handleDownload_free true 0 0 ≠ ExportOutcome.notice := by
  decide

/-- C9 amended: with a zero-width or zero-height output surface, the
main and App.tsx variants surface the user-visible notice and produce
no file, while the free-build variant, lacking the guard, proceeds to
the download path without any notice. -/
theorem download_zero_area_guard (w h : ℕ) (hz : w = 0 ∨ h = 0) :
    handleDownload_main true w h = ExportOutcome.notice ∧
    handleDownload_app true w h = ExportOutcome.notice ∧
    handleDownload_free true w h = ExportOutcome.download := by
  refine ⟨?_, ?_, rfl⟩ <;>
    simp [handleDownload_main, handleDownload_app, hz]

/-- C9 witness: the guard evaluated at a zero-width, positive-height
surface. -/
theorem download_zero_area_guard_witness :
    handleDownload_main true 0 5 = ExportOutcome.notice ∧
    handleDownload_app true 0 5 = ExportOutcome.notice ∧
    handleDownload_free true 0 5 = ExportOutcome.download :=
  download_zero_area_guard 0 5 (Or.inl rfl)

/-- WorkingBuffer dimensions (part_000 lines 88 to 95): previewScale is
0.35 while scrubbing and 1 otherwise, and each dimension is
Math.max(1, Math.floor(size * previewScale)). -/
def workDims (scrubbing : Bool) (cw ch : ℕ) : ℕ × ℕ :=
  let previewScale : ℚ := if scrubbing then 0.35 else 1
  (max 1 (⌊(cw : ℚ) * previewScale⌋).toNat,
   max 1 (⌊(ch : ℚ) * previewScale⌋).toNat)

/-- The overlay helpers of part_000 lines 214 to 270. -/
inductive OverlayKind
  | vignette
  | filmBurn
  | scanlines
  | chromAb
  | warmEdgeBurn
deriving DecidableEq

/-- One overlay invocation on the visible canvas, with the canvas
dimensions passed to it and its strength, energy or opacity argument
(0.35 for the chromatic-aberration helper, whose alpha is fixed
inside). -/
structure OverlayCall where
  kind : OverlayKind
  w : ℕ
  h : ℕ
  strength : ℚ
deriving DecidableEq

/-- Preset-driven overlay invocations (part_000 lines 185 to 201),
always at the full visible-canvas dimensions. -/
def presetOverlays (pr : Preset) (cw ch : ℕ) : List OverlayCall :=
  match pr with
  | .film => [⟨.vignette, cw, ch, 0.5⟩, ⟨.filmBurn, cw, ch, 0.8⟩]
  | .lofi => [⟨.vignette, cw, ch, 0.7⟩]
  | .vhs => [⟨.scanlines, cw, ch, 0.18⟩, ⟨.chromAb, cw, ch, 0.35⟩]
  | .ultra => [⟨.vignette, cw, ch, 0.85⟩, ⟨.filmBurn, cw, ch, 1⟩,
               ⟨.scanlines, cw, ch, 0.25⟩, ⟨.chromAb, cw, ch, 0.35⟩]
  | .pnone => []

/-- Burn-driven overlay invocations (part_000 lines 203 to 206): when
burn is positive, an extra vignette at strength 0.28 * burn / 100 and a
warm edge burn at strength 0.5 * burn / 100, both at the full
visible-canvas dimensions. -/
def burnOverlays (burn : ℚ) (cw ch : ℕ) : List OverlayCall :=
  if 0 < burn then
    [⟨.vignette, cw, ch, 0.28 * (burn / 100)⟩,
     ⟨.warmEdgeBurn, cw, ch, 0.5 * (burn / 100)⟩]
  else []

/-- The full overlay sequence of one renderFrame call: preset overlays
first, burn-driven overlays last. -/
def overlayCalls (pr : Preset) (burn : ℚ) (cw ch : ℕ) : List OverlayCall :=
  presetOverlays pr cw ch ++ burnOverlays burn cw ch

/-- C7: while scrubbing, the WorkingBuffer measures exactly
max(1, floor(0.35 * width)) by max(1, floor(0.35 * height)); and
whenever burn is positive the burn-driven vignette and warm-edge-burn
overlays are part of the executed overlay sequence and run at the full
output dimensions. -/
theorem preview_dims_and_burn_overlays (cw ch : ℕ) (burn : ℚ)
    (pr : Preset) (hb : 0 < burn) :
    workDims true cw ch =
      (max 1 (⌊(0.35 : ℚ) * cw⌋).toNat,
       max 1 (⌊(0.35 : ℚ) * ch⌋).toNat) ∧
    (∀ c ∈ burnOverlays burn cw ch, c.w = cw ∧ c.h = ch) ∧
    overlayCalls pr burn cw ch =
      presetOverlays pr cw ch ++
        [⟨.vignette, cw, ch, 0.28 * (burn / 100)⟩,
         ⟨.warmEdgeBurn, cw, ch, 0.5 * (burn / 100)⟩] := by
  refine ⟨?_, ?_, ?_⟩
  · simp [workDims, mul_comm]
  · intro c hc
    rw [burnOverlays, if_pos hb] at hc
    simp only [List.mem_cons, List.not_mem_nil, or_false] at hc
    rcases hc with h | h <;> (rw [h]; exact ⟨rfl, rfl⟩)
  · rw [overlayCalls, burnOverlays, if_pos hb]

/-- C7 witness: the preview dimensions and the burn overlays at a
concrete 100 by 60 output with burn 35. -/
theorem preview_dims_and_burn_overlays_witness :
    workDims true 100 60 =
      (max 1 (⌊(0.35 : ℚ) * 100⌋).toNat,
       max 1 (⌊(0.35 : ℚ) * 60⌋).toNat) ∧
    (∀ c ∈ burnOverlays 35 100 60, c.w = 100 ∧ c.h = 60) ∧
    overlayCalls Preset.pnone 35 100 60 =
      presetOverlays Preset.pnone 100 60 ++
        [⟨.vignette, 100, 60, 0.28 * (35 / 100)⟩,
         ⟨.warmEdgeBurn, 100, 60, 0.5 * (35 / 100)⟩] :=
  preview_dims_and_burn_overlays 100 60 35 Preset.pnone (by norm_num)

theorem jsTrunc_intCast (n : ℤ) : jsTrunc (n : ℚ) = n := by
  unfold jsTrunc
  split <;> simp

theorem clamp_of_ge_255 (q : ℚ) (h : 255 ≤ q) : clamp q = 255 := by
  unfold clamp jsTrunc
  rw [if_pos ((by norm_num : (0:ℚ) ≤ 255).trans h)]
  rw [min_eq_left (Int.le_floor.mpr (by exact_mod_cast h))]
  norm_num

theorem clamp_int_mul_255 (k : ℤ) :
    clamp ((k : ℚ) * 255) = 0 ∨ clamp ((k : ℚ) * 255) = 255 := by
  have hcast : ((k : ℚ) * 255) = ((k * 255 : ℤ) : ℚ) := by push_cast; ring
  unfold clamp
  rw [hcast, jsTrunc_intCast]
  rcases le_or_lt k 0 with hk | hk
  · left
    have h1 : k * 255 ≤ 0 := by omega
    rw [min_eq_right (h1.trans (by norm_num)), max_eq_left h1]
  · right
    have h1 : (255 : ℤ) ≤ k * 255 := by omega
    rw [min_eq_left h1]
    norm_num

/-- The ParameterSet of the white-pixel burn scenario: burn 100, all
gains neutral, posterize and noise off. -/
def whiteBurnParams : Params :=
  { brightness := 100, contrast := 100, saturation := 100, hue := 0,
    exposureEV := 0, burn := 100, noise := 0, posterize := 0,
    preset := .pnone }

/-- C5: the burn branch computes exactly the spec's formulas (with the
derived green and blue coefficients 0.7475 and 0.4025), and on a
pure-white pixel with burn 100 and neutral gains the mask t is 1, red
and green are pushed above 255 and clamp to 255, and blue is reduced by
the subtractive term of the formula before clamping. -/
theorem burn_formula_and_white_scenario :
    (∀ bA r g b : ℚ, 0 < bA →
      burnStep bA r g b =
        (r * (1 + 1.15 * bA * tMask (lum r g b)) +
           255 * 0.45 * bA * tMask (lum r g b) * 0.6,
         g * (1 + 0.7475 * bA * tMask (lum r g b)) +
           255 * 0.45 * bA * tMask (lum r g b) * 0.3,
         b * (1 + 0.4025 * bA * tMask (lum r g b)) -
           255 * 0.28 * bA * tMask (lum r g b) * 0.2)) ∧
    burnAmt 100 = 1 ∧
    tMask (lum 255 255 255) = 1 ∧
    (255 < (burnStep 1 255 255 255).1 ∧
      clamp (burnStep 1 255 255 255).1 = 255) ∧
    (255 < (burnStep 1 255 255 255).2.1 ∧
      clamp (burnStep 1 255 255 255).2.1 = 255) ∧
    ((burnStep 1 255 255 255).2.2 =
        255 * (1 + 0.4025 * 1) - 255 * 0.28 * 1 * 0.2 ∧
      (burnStep 1 255 255 255).2.2 < 255 * (1 + 0.4025 * 1)) ∧
    processPixel whiteBurnParams 1 true 0 255 255 255 = (255, 255, 255) := by
  have hr : (255 : ℚ) < (burnStep 1 255 255 255).1 := by
    norm_num [burnStep, tMask, lum, min_def, max_def]
  have hg : (255 : ℚ) < (burnStep 1 255 255 255).2.1 := by
    norm_num [burnStep, tMask, lum, min_def, max_def]
  have hb : (255 : ℚ) ≤ (burnStep 1 255 255 255).2.2 := by
    norm_num [burnStep, tMask, lum, min_def, max_def]
  have hpre : preClamp whiteBurnParams 1 true 0 255 255 255 =
      burnStep 1 255 255 255 := by
    norm_num [preClamp, whiteBurnParams, extraGain, burnAmt, min_def, max_def]
  refine ⟨?_, ?_, ?_, ⟨hr, clamp_of_ge_255 _ hr.le⟩,
    ⟨hg, clamp_of_ge_255 _ hg.le⟩, ⟨?_, ?_⟩, ?_⟩
  · intro bA r g b h
    simp only [burnStep, if_pos h, Prod.mk.injEq]
    refine ⟨?_, ?_, ?_⟩ <;> ring
  · norm_num [burnAmt, min_def, max_def]
  · norm_num [tMask, lum, min_def, max_def]
  · norm_num [burnStep, tMask, lum, min_def, max_def]
  · norm_num [burnStep, tMask, lum, min_def, max_def]
  · simp only [processPixel]
    rw [hpre, clamp_of_ge_255 _ hr.le, clamp_of_ge_255 _ hg.le,
      clamp_of_ge_255 _ hb]

/-- C5 witness: the burn formulas instantiated on a concrete pixel with
burn amount 1. -/
theorem burn_formula_and_white_scenario_witness :
    burnStep 1 255 255 255 =
      (255 * (1 + 1.15 * 1 * tMask (lum 255 255 255)) +
         255 * 0.45 * 1 * tMask (lum 255 255 255) * 0.6,
       255 * (1 + 0.7475 * 1 * tMask (lum 255 255 255)) +
         255 * 0.45 * 1 * tMask (lum 255 255 255) * 0.3,
       255 * (1 + 0.4025 * 1 * tMask (lum 255 255 255)) -
         255 * 0.28 * 1 * tMask (lum 255 255 255) * 0.2) :=
  burn_formula_and_white_scenario.1 1 255 255 255 (by norm_num)

/-- Parameters with posterize 2 and noise off, otherwise the defaults. -/
def binParams : Params :=
  { brightness := 120, contrast := 120, saturation := 140, hue := 0,
    exposureEV := 0, burn := 35, noise := 0, posterize := 2,
    preset := .pnone }

/-- Parameters with posterize 2 and a positive in-range noise amount. -/
def noisyPosterParams : Params :=
  { brightness := 120, contrast := 120, saturation := 140, hue := 0,
    exposureEV := 0, burn := 0, noise := 1/5, posterize := 2,
    preset := .pnone }

/-- C6 counterexample: with posterize 2, heavy passes allowed and the
in-range noise amount 1/5, a mid-gray pixel with random sample 9/10
comes out at channel value 40, which is neither 0 nor 255 — the noise
stage runs after quantization and moves values off the two levels. -/
theorem posterize_two_with_noise_cex :
    inRange noisyPosterParams ∧ noisyPosterParams.posterize = 2 ∧
    (processPixel noisyPosterParams 1 true (9/10) 100 100 100).1 = 40 ∧
    ¬ ((processPixel noisyPosterParams 1 true (9/10) 100 100 100).1 = 0 ∨
       (processPixel noisyPosterParams 1 true (9/10) 100 100 100).1
         = 255) := by
  have hround : jsRound ((20 : ℚ)/51) = 0 := by
    unfold jsRound
    rw [Int.floor_eq_iff]
    constructor <;> norm_num
  have htr : jsTrunc ((204 : ℚ)/5) = 40 := by
    unfold jsTrunc
    rw [if_pos (by norm_num)]
    rw [Int.floor_eq_iff]
    constructor <;> norm_num
  have hv : (processPixel noisyPosterParams 1 true (9/10) 100 100 100).1
      = 40 := by
    norm_num [processPixel, preClamp, noisyPosterParams, extraGain,
      burnAmt, burnStep, clamp, min_def, max_def, hround, htr]
  refine ⟨by norm_num [inRange, noisyPosterParams], rfl, hv, ?_⟩
  rw [hv]
  norm_num

/-- C6 amended: with posterize 2, heavy passes allowed and noise
disabled, every output channel of the pixel loop is exactly 0 or 255,
for every input pixel and all remaining parameters: the quantization
step is 255, so the pre-clamp value is an integer multiple of 255 and
the clamp collapses it to one of the two levels. -/
theorem posterize_two_noise_free_binary (p : Params) (eg rand r g b : ℚ)
    (h2 : p.posterize = 2) (hn : p.noise = 0) :
    ((processPixel p eg true rand r g b).1 = 0 ∨
      (processPixel p eg true rand r g b).1 = 255) ∧
    ((processPixel p eg true rand r g b).2.1 = 0 ∨
      (processPixel p eg true rand r g b).2.1 = 255) ∧
    ((processPixel p eg true rand r g b).2.2 = 0 ∨
      (processPixel p eg true rand r g b).2.2 = 255) := by
  simp only [processPixel, preClamp, h2, hn]
  norm_num
  exact ⟨clamp_int_mul_255 _, clamp_int_mul_255 _, clamp_int_mul_255 _⟩

/-- C6 amended witness: the two-level property evaluated at the
defaults with posterize 2 and noise 0 on a mid-gray pixel. -/
theorem posterize_two_noise_free_binary_witness :
    ((processPixel binParams 1 true 0 100 100 100).1 = 0 ∨
      (processPixel binParams 1 true 0 100 100 100).1 = 255) ∧
    ((processPixel binParams 1 true 0 100 100 100).2.1 = 0 ∨
      (processPixel binParams 1 true 0 100 100 100).2.1 = 255) ∧
    ((processPixel binParams 1 true 0 100 100 100).2.2 = 0 ∨
      (processPixel binParams 1 true 0 100 100 100).2.2 = 255) :=
  posterize_two_noise_free_binary binParams 1 0 100 100 100 rfl rfl

theorem processPixel_noise_indep (p : Params) (hn : p.noise = 0)
    (eg : ℚ) (ah : Bool) (x y r g b : ℚ) :
    processPixel p eg ah x r g b = processPixel p eg ah y r g b := by
  simp [processPixel, preClamp, hn]

theorem pixelLoop_noise_indep (p : Params) (eg : ℚ) (ah : Bool)
    (r1 r2 : ℕ → ℚ) (hn : p.noise = 0) :
    ∀ k d, pixelLoop p eg ah r1 k d = pixelLoop p eg ah r2 k d := by
  intro k d
  induction k, d using pixelLoop.induct p eg ah r1 with
  | case1 k r g b a rest ih =>
    simp only [pixelLoop]
    rw [processPixel_noise_indep p hn eg ah (r1 k) (r2 k) r g b, ih]
  | case2 k => rfl
  | case3 k x => rfl
  | case4 k x y => rfl
  | case5 k x y z => rfl

/-- C8: with noise disabled and scrubbing false, the pixel pass is a
pure function of the parameters and the source data: the per-pixel
random stream has no influence on the output, so invoking the pipeline
twice on the same immutable source with the same ParameterSet yields
byte-identical buffers. -/
theorem renderPixels_noise_free_deterministic (p : Params) (eg : ℚ)
    (runHeavy : Bool) (r1 r2 : ℕ → ℚ) (d : List ℚ)
    (hn : p.noise = 0) :
    renderPixels p eg false runHeavy r1 d =
      renderPixels p eg false runHeavy r2 d := by
  simp only [renderPixels, Bool.not_false, Bool.or_true]
  rw [if_pos (Or.inl trivial), if_pos (Or.inl trivial)]
  exact pixelLoop_noise_indep p eg true r1 r2 hn 0 d

/-- Parameters equal to the defaults except that noise is disabled. -/
def noiseFreeParams : Params :=
  { brightness := 120, contrast := 120, saturation := 140, hue := 0,
    exposureEV := 0, burn := 35, noise := 0, posterize := 0,
    preset := .pnone }

/-- C8 witness: two renders of one concrete pixel under two different
random streams coincide when noise is disabled. -/
theorem renderPixels_noise_free_deterministic_witness :
    renderPixels noiseFreeParams 1 false true (fun _ => 0)
        [10, 20, 30, 40] =
      renderPixels noiseFreeParams 1 false true (fun _ => 9/10)
        [10, 20, 30, 40] :=
  renderPixels_noise_free_deterministic noiseFreeParams 1 true
    (fun _ => 0) (fun _ => 9/10) [10, 20, 30, 40] rfl

theorem getElem?_cons_add_four (x y z a : ℚ) (t : List ℚ) (m : ℕ) :
    (x :: y :: z :: a :: t)[m + 4]? = t[m]? := by
  simp [show m + 4 = m + 1 + 1 + 1 + 1 from by omega,
    List.getElem?_cons_succ]

/-- C10: the pixel loop preserves the buffer length and writes only the
three color bytes of each pixel: the alpha byte at every index 4k + 3
comes through unchanged. -/
theorem pixelLoop_preserves_alpha (p : Params) (eg : ℚ) (ah : Bool)
    (rand : ℕ → ℚ) :
    ∀ k d, (pixelLoop p eg ah rand k d).length = d.length ∧
      ∀ j, (pixelLoop p eg ah rand k d)[4 * j + 3]? = d[4 * j + 3]? := by
  intro k d
  induction k, d using pixelLoop.induct p eg ah rand with
  | case1 k r g b a rest ih =>
    refine ⟨by simp [pixelLoop, ih.1], ?_⟩
    intro j
    cases j with
    | zero => simp [pixelLoop]
    | succ j =>
      have h4 : 4 * (j + 1) + 3 = 4 * j + 3 + 4 := by ring
      simp only [pixelLoop]
      rw [h4, getElem?_cons_add_four, getElem?_cons_add_four]
      exact ih.2 j
  | case2 k => exact ⟨rfl, fun j => rfl⟩
  | case3 k x => exact ⟨rfl, fun j => rfl⟩
  | case4 k x y => exact ⟨rfl, fun j => rfl⟩
  | case5 k x y z => exact ⟨rfl, fun j => rfl⟩

end DeepFry
